import Mathlib

/-!
# Verification of the Python event bridge

A shallow embedding of `src/modules/collaboration/bridges/PythonEventBridge.py`:
the bounded event queue, the batch accumulator and dispatcher loop, the HTTP
transport surface, and the bridge facade (`emit_event`, `start`, `stop`,
`get_stats`).  Concurrency is modelled by a sequential interleaving in which
each dispatcher-loop iteration is a step fed with the current wall-clock time
and the outcome of any network send it performs; wall-clock time is `ℚ`
(seconds), network calls are recorded in a ghost `posts` trace.
-/

set_option autoImplicit false

/-- `CollaborationEvent` dataclass: one event to be sent to the collaboration
server.  `metadata` (a free-form string dict in the source) is modelled as an
association list. -/
structure CollaborationEvent where
  id : String
  type : String
  content : String
  timestamp : Int
  operation_id : String
  session_id : Option String := none
  user_id : Option String := none
  metadata : List (String × String) := []
deriving Repr, DecidableEq

/-- `EventQueue`: thread-safe bounded FIFO with an overflow counter.  The
underlying `queue.Queue` state is its list of elements plus `maxsize`;
`dropped_count` is the overflow counter. -/
structure EventQueue where
  events : List CollaborationEvent
  maxsize : Nat
  dropped_count : Nat
deriving Repr, DecidableEq

/-- `EventQueue.put(event, block=False)`: `queue.Queue.put` with
`timeout=0.1` raises `queue.Full` (whether or not `block` is set, the wait is
bounded by 0.1 s) exactly when the queue holds `maxsize` elements; a Python
`Queue` with `maxsize <= 0` is unbounded and never full.  On `Full` the event
is discarded and `dropped_count` incremented; otherwise the event is appended
and the call returns `true`. -/
def EventQueue.put (q : EventQueue) (event : CollaborationEvent)
    (_block : Bool := false) : EventQueue × Bool :=
  if q.maxsize = 0 ∨ q.events.length < q.maxsize then
    ({ q with events := q.events ++ [event] }, true)
  else
    ({ q with dropped_count := q.dropped_count + 1 }, false)

/-- `EventQueue.get`: remove and return the oldest event, or `none` when the
queue is empty for the whole (bounded) wait. -/
def EventQueue.get (q : EventQueue) : Option CollaborationEvent × EventQueue :=
  match q.events with
  | [] => (none, q)
  | e :: rest => (some e, { q with events := rest })

/-- `EventQueue.size`: current queue size (`qsize`). -/
def EventQueue.size (q : EventQueue) : Nat :=
  q.events.length

/-- `EventQueue.get_dropped_count`: number of dropped events. -/
def EventQueue.get_dropped_count (q : EventQueue) : Nat :=
  q.dropped_count

/-- The headers installed on the bridge's HTTP session by `_create_session`. -/
structure SessionHeaders where
  contentType : String
  xApiKey : String
  userAgent : String
deriving Repr, DecidableEq

/-- `_create_session`, restricted to its observable wire surface: the default
headers carried by every request (the retry/pool configuration of the adapter
lives below the `session.post` call that the model records). -/
def create_session (api_key : String) : SessionHeaders :=
  { contentType := "application/json"
    xApiKey := api_key
    userAgent := "PythonEventBridge/1.0" }

/-- `dataclasses.asdict` applied to a `CollaborationEvent`: the JSON object
sent on the wire for one event, carrying all eight fields. -/
structure EventDict where
  id : String
  type : String
  content : String
  timestamp : Int
  operation_id : String
  session_id : Option String
  user_id : Option String
  metadata : List (String × String)
deriving Repr, DecidableEq

/-- Field-for-field conversion of an event to its wire dict. -/
def asdict (e : CollaborationEvent) : EventDict :=
  { id := e.id
    type := e.type
    content := e.content
    timestamp := e.timestamp
    operation_id := e.operation_id
    session_id := e.session_id
    user_id := e.user_id
    metadata := e.metadata }

/-- The JSON body of one batch request: `{"events": [...]}`. -/
structure BatchPayload where
  events : List EventDict
deriving Repr, DecidableEq

/-- One `session.post` call recorded on the ghost network trace. -/
structure HttpPost where
  url : String
  headers : SessionHeaders
  payload : BatchPayload
deriving Repr, DecidableEq

/-- Outcome of one `session.post` exchange, as classified by the `except`
arms of `_send_batch` (the adapter-level retries happen inside the single
exchange). -/
inductive SendOutcome where
  | success
  | connectionError
  | timeoutError
  | httpError
  | otherError
deriving Repr, DecidableEq

/-- The bridge's statistics dict. -/
structure Stats where
  events_sent : Nat
  events_failed : Nat
  batches_sent : Nat
  connection_errors : Nat
deriving Repr, DecidableEq

/-- State of one `PythonEventBridge` instance.  `worker_alive` models
`worker_thread is not None and worker_thread.is_alive()`; `posts` is the
ghost trace of `session.post` calls. -/
structure PythonEventBridge where
  api_url : String
  api_key : String
  batch_size : Nat
  batch_timeout : ℚ
  max_retries : Nat
  enabled : Bool
  event_queue : EventQueue
  current_batch : List CollaborationEvent
  last_batch_time : ℚ
  worker_alive : Bool
  stop_event : Bool
  stats : Stats
  posts : List HttpPost
deriving Repr, DecidableEq

/-- `_send_batch(events)`: returns the updated state and whether an exception
propagated to the caller.  An empty list returns at once with no request; a
non-empty list is serialized as `{"events": [asdict(e) ...]}` and posted once
to `api_url` with the session headers.  A connection error increments
`connection_errors` and re-raises; timeouts, HTTP errors and unexpected
errors re-raise without touching the statistics. -/
def PythonEventBridge.send_batch (st : PythonEventBridge)
    (events : List CollaborationEvent) (o : SendOutcome) :
    PythonEventBridge × Bool :=
  if events = [] then (st, false)
  else
    let post : HttpPost :=
      { url := st.api_url
        headers := create_session st.api_key
        payload := { events := events.map asdict } }
    let st1 := { st with posts := st.posts ++ [post] }
    match o with
    | .success => (st1, false)
    | .connectionError =>
        ({ st1 with stats :=
            { st1.stats with connection_errors := st1.stats.connection_errors + 1 } },
         true)
    | .timeoutError => (st1, true)
    | .httpError => (st1, true)
    | .otherError => (st1, true)

/-- `_flush_batch()`: early return when the current batch is empty; otherwise
send it, count it as sent or failed, and in all cases clear the batch and
reset `last_batch_time` to the current time. -/
def PythonEventBridge.flush_batch (st : PythonEventBridge) (o : SendOutcome)
    (now : ℚ) : PythonEventBridge :=
  if st.current_batch = [] then st
  else
    let sent := st.send_batch st.current_batch o
    let st2 :=
      if sent.2 then
        { sent.1 with stats :=
            { sent.1.stats with
                events_failed := sent.1.stats.events_failed + st.current_batch.length } }
      else
        { sent.1 with stats :=
            { sent.1.stats with
                batches_sent := sent.1.stats.batches_sent + 1
                events_sent := sent.1.stats.events_sent + st.current_batch.length } }
    { st2 with current_batch := [], last_batch_time := now }

/-- One iteration of the body of `_worker_loop`'s `while` loop: dequeue one
event with a bounded wait; only if an event arrived, append it to the current
batch and flush when the batch size is reached or the batch timeout has
elapsed since the last flush. -/
def PythonEventBridge.worker_iter (st : PythonEventBridge) (now : ℚ)
    (o : SendOutcome) : PythonEventBridge :=
  match st.event_queue.get with
  | (none, _) => st
  | (some e, q) =>
    let st1 := { st with event_queue := q, current_batch := st.current_batch ++ [e] }
    if st1.batch_size ≤ st1.current_batch.length ∨
        st1.batch_timeout ≤ now - st1.last_batch_time then
      st1.flush_batch o now
    else st1

/-- One scheduled dispatcher-loop iteration: the wall-clock time at which it
runs and the outcome of the network send it would perform. -/
structure Tick where
  now : ℚ
  outcome : SendOutcome
deriving Repr, DecidableEq

/-- The `while not self.stop_event.is_set()` loop of `_worker_loop`, run over
a finite schedule of iterations. -/
def PythonEventBridge.worker_loop_go (st : PythonEventBridge) :
    List Tick → PythonEventBridge
  | [] => st
  | t :: ts =>
    if st.stop_event then st
    else (st.worker_iter t.now t.outcome).worker_loop_go ts

/-- `_worker_loop`: the dispatcher loop followed by the final forced flush on
loop exit. -/
def PythonEventBridge.worker_loop (st : PythonEventBridge) (ticks : List Tick)
    (fo : SendOutcome) (fnow : ℚ) : PythonEventBridge :=
  (st.worker_loop_go ticks).flush_batch fo fnow

/-- `start()`: if a dispatcher thread is already alive, return without
effect; otherwise clear the stop signal and launch exactly one dispatcher
thread. -/
def PythonEventBridge.start (st : PythonEventBridge) : PythonEventBridge :=
  if st.worker_alive then st
  else { st with stop_event := false, worker_alive := true }

/-- `stop(timeout)`: return without effect when no worker thread is running;
otherwise set the stop signal, flush the remaining events from the calling
thread, and join the worker, which observes the signal, exits its loop and
performs its own final flush before dying (the join timeout only affects
logging). -/
def PythonEventBridge.stop (st : PythonEventBridge) (o : SendOutcome)
    (now : ℚ) : PythonEventBridge :=
  if st.worker_alive = false then st
  else
    let st1 := { st with stop_event := true }
    let st2 := st1.flush_batch o now
    let st3 := st2.flush_batch o now
    { st3 with worker_alive := false }

/-- The snapshot returned by `get_stats()`. -/
structure StatsSnapshot where
  events_sent : Nat
  events_failed : Nat
  batches_sent : Nat
  connection_errors : Nat
  queue_size : Nat
  dropped_events : Nat
  enabled : Bool
deriving Repr, DecidableEq

/-- `get_stats()`: the counters plus the queue's live depth and drop count. -/
def PythonEventBridge.get_stats (st : PythonEventBridge) : StatsSnapshot :=
  { events_sent := st.stats.events_sent
    events_failed := st.stats.events_failed
    batches_sent := st.stats.batches_sent
    connection_errors := st.stats.connection_errors
    queue_size := st.event_queue.size
    dropped_events := st.event_queue.get_dropped_count
    enabled := st.enabled }

/-- The caller-supplied arguments of `emit_event`, together with the two
values the call reads from its environment: the generated uuid and the
emission timestamp in milliseconds. -/
structure EmitArgs where
  event_type : String
  content : String
  operation_id : String
  session_id : Option String := none
  user_id : Option String := none
  metadata : Option (List (String × String)) := none
  gen_id : String
  now_ms : Int
deriving Repr, DecidableEq

/-- `emit_event(...)`: returns `false` at once when the bridge is not
enabled; otherwise constructs the event (assigning id and timestamp,
defaulting `metadata` to `{}`) and forwards it to the queue, returning the
queue's insertion result. -/
def PythonEventBridge.emit_event (st : PythonEventBridge) (a : EmitArgs) :
    PythonEventBridge × Bool :=
  if st.enabled = false then (st, false)
  else
    let event : CollaborationEvent :=
      { id := a.gen_id
        type := a.event_type
        content := a.content
        timestamp := a.now_ms
        operation_id := a.operation_id
        session_id := a.session_id
        user_id := a.user_id
        metadata := a.metadata.getD [] }
    let put := st.event_queue.put event
    ({ st with event_queue := put.1 }, put.2)

/-- `__init__(api_url, api_key, batch_size, batch_timeout, max_retries,
enabled)` with the environment-variable fallbacks already resolved into the
string arguments: `enabled` is anded with the truthiness of `api_key`, the
queue is created with `maxsize=1000`, `last_batch_time` is set to the current
time, and the worker is started when the bridge ends up enabled. -/
def PythonEventBridge.init (api_url api_key : String) (batch_size : Nat)
    (batch_timeout : ℚ) (max_retries : Nat) (enabled : Bool) (now : ℚ) :
    PythonEventBridge :=
  let en := enabled && !(api_key == "")
  let base : PythonEventBridge :=
    { api_url := api_url
      api_key := api_key
      batch_size := batch_size
      batch_timeout := batch_timeout
      max_retries := max_retries
      enabled := en
      event_queue := { events := [], maxsize := 1000, dropped_count := 0 }
      current_batch := []
      last_batch_time := now
      worker_alive := false
      stop_event := false
      stats := { events_sent := 0, events_failed := 0, batches_sent := 0,
                 connection_errors := 0 }
      posts := [] }
  if en then base.start else base

/-! ## Basic lemmas about `_flush_batch` -/

@[simp]
lemma PythonEventBridge.flush_batch_event_queue (st : PythonEventBridge)
    (o : SendOutcome) (now : ℚ) :
    (st.flush_batch o now).event_queue = st.event_queue := by
  by_cases h : st.current_batch = [] <;>
    cases o <;>
    simp [PythonEventBridge.flush_batch, PythonEventBridge.send_batch, h]

@[simp]
lemma PythonEventBridge.flush_batch_worker_alive (st : PythonEventBridge)
    (o : SendOutcome) (now : ℚ) :
    (st.flush_batch o now).worker_alive = st.worker_alive := by
  by_cases h : st.current_batch = [] <;>
    cases o <;>
    simp [PythonEventBridge.flush_batch, PythonEventBridge.send_batch, h]

@[simp]
lemma PythonEventBridge.flush_batch_stop_event (st : PythonEventBridge)
    (o : SendOutcome) (now : ℚ) :
    (st.flush_batch o now).stop_event = st.stop_event := by
  by_cases h : st.current_batch = [] <;>
    cases o <;>
    simp [PythonEventBridge.flush_batch, PythonEventBridge.send_batch, h]

@[simp]
lemma PythonEventBridge.flush_batch_api_url (st : PythonEventBridge)
    (o : SendOutcome) (now : ℚ) :
    (st.flush_batch o now).api_url = st.api_url := by
  by_cases h : st.current_batch = [] <;>
    cases o <;>
    simp [PythonEventBridge.flush_batch, PythonEventBridge.send_batch, h]

@[simp]
lemma PythonEventBridge.flush_batch_api_key (st : PythonEventBridge)
    (o : SendOutcome) (now : ℚ) :
    (st.flush_batch o now).api_key = st.api_key := by
  by_cases h : st.current_batch = [] <;>
    cases o <;>
    simp [PythonEventBridge.flush_batch, PythonEventBridge.send_batch, h]

@[simp]
lemma PythonEventBridge.flush_batch_batch_size (st : PythonEventBridge)
    (o : SendOutcome) (now : ℚ) :
    (st.flush_batch o now).batch_size = st.batch_size := by
  by_cases h : st.current_batch = [] <;>
    cases o <;>
    simp [PythonEventBridge.flush_batch, PythonEventBridge.send_batch, h]

@[simp]
lemma PythonEventBridge.flush_batch_batch_timeout (st : PythonEventBridge)
    (o : SendOutcome) (now : ℚ) :
    (st.flush_batch o now).batch_timeout = st.batch_timeout := by
  by_cases h : st.current_batch = [] <;>
    cases o <;>
    simp [PythonEventBridge.flush_batch, PythonEventBridge.send_batch, h]

@[simp]
lemma PythonEventBridge.flush_batch_enabled (st : PythonEventBridge)
    (o : SendOutcome) (now : ℚ) :
    (st.flush_batch o now).enabled = st.enabled := by
  by_cases h : st.current_batch = [] <;>
    cases o <;>
    simp [PythonEventBridge.flush_batch, PythonEventBridge.send_batch, h]

@[simp]
lemma PythonEventBridge.flush_batch_current_batch (st : PythonEventBridge)
    (o : SendOutcome) (now : ℚ) :
    (st.flush_batch o now).current_batch = [] := by
  by_cases h : st.current_batch = [] <;>
    cases o <;>
    simp [PythonEventBridge.flush_batch, PythonEventBridge.send_batch, h]

lemma PythonEventBridge.flush_batch_empty (st : PythonEventBridge)
    (o : SendOutcome) (now : ℚ) (h : st.current_batch = []) :
    st.flush_batch o now = st := by
  simp [PythonEventBridge.flush_batch, h]

lemma PythonEventBridge.flush_batch_posts (st : PythonEventBridge)
    (o : SendOutcome) (now : ℚ) (h : st.current_batch ≠ []) :
    (st.flush_batch o now).posts = st.posts ++
      [{ url := st.api_url, headers := create_session st.api_key,
         payload := { events := st.current_batch.map asdict } }] := by
  cases o <;>
    simp [PythonEventBridge.flush_batch, PythonEventBridge.send_batch, h]

/-! ## Concrete sample states used to exercise the theorems -/

/-- A concrete event. -/
def evA : CollaborationEvent :=
  { id := "e1", type := "stdout", content := "hello", timestamp := 0,
    operation_id := "op1" }

/-- A concrete running bridge: worker alive, empty queue, one event buffered
in the current batch. -/
def sampleBridge : PythonEventBridge :=
  { api_url := "http://localhost:8081/api/events"
    api_key := "k"
    batch_size := 10
    batch_timeout := 1/2
    max_retries := 3
    enabled := true
    event_queue := { events := [], maxsize := 1000, dropped_count := 0 }
    current_batch := [evA]
    last_batch_time := 0
    worker_alive := true
    stop_event := false
    stats := { events_sent := 0, events_failed := 0, batches_sent := 0,
               connection_errors := 0 }
    posts := [] }

/-- The sample bridge with nothing buffered. -/
def sampleIdleBridge : PythonEventBridge :=
  { sampleBridge with current_batch := [] }

/-! ## C3: queue insertion contract -/

/-- C3: `EventQueue.put` attempts insertion with a bounded wait and returns
`true` on success (appending the event, leaving the overflow counter
unchanged); when the queue is full it returns `false`, increments the
overflow counter by exactly one, and discards the event. -/
theorem C3_put_contract (q : EventQueue) (e : CollaborationEvent) (b : Bool)
    (hcap : 0 < q.maxsize) :
    (q.events.length < q.maxsize →
      (q.put e b).2 = true ∧
      (q.put e b).1.events = q.events ++ [e] ∧
      (q.put e b).1.get_dropped_count = q.get_dropped_count) ∧
    (q.maxsize ≤ q.events.length →
      (q.put e b).2 = false ∧
      (q.put e b).1.events = q.events ∧
      (q.put e b).1.get_dropped_count = q.get_dropped_count + 1) := by
  constructor
  · intro h
    simp [EventQueue.put, EventQueue.get_dropped_count, h]
  · intro h
    have h1 : ¬(q.maxsize = 0 ∨ q.events.length < q.maxsize) := by omega
    simp [EventQueue.put, EventQueue.get_dropped_count, h1]

/-- Witness for C3 on a concrete capacity-1 queue, exercised both below and
at capacity. -/
theorem C3_put_contract_witness :
    ((({ events := [], maxsize := 1, dropped_count := 0 } : EventQueue).put evA).2 = true ∧
     (({ events := [evA], maxsize := 1, dropped_count := 0 } : EventQueue).put evA).2 = false ∧
     (({ events := [evA], maxsize := 1, dropped_count := 0 } : EventQueue).put evA).1.get_dropped_count = 1) :=
  ⟨((C3_put_contract { events := [], maxsize := 1, dropped_count := 0 } evA false
      (by decide)).1 (by decide)).1,
   ((C3_put_contract { events := [evA], maxsize := 1, dropped_count := 0 } evA false
      (by decide)).2 (by decide)).1,
   by
     have := ((C3_put_contract { events := [evA], maxsize := 1, dropped_count := 0 } evA false
      (by decide)).2 (by decide)).2.2
     simpa using this⟩

/-! ## C10: empty batches are never sent -/

/-- C10: flushing an empty batch performs no network call and changes
nothing (statistics and last-flush timestamp included); `_send_batch` of an
empty list posts nothing; and every post ever recorded by a flush carries at
least one event. -/
theorem C10_empty_batch_inert (st : PythonEventBridge) (o : SendOutcome) (now : ℚ) :
    (st.current_batch = [] → st.flush_batch o now = st) ∧
    st.send_batch [] o = (st, false) ∧
    (∀ p ∈ (st.flush_batch o now).posts, p ∈ st.posts ∨ p.payload.events ≠ []) := by
  refine ⟨fun h => PythonEventBridge.flush_batch_empty st o now h, by simp [PythonEventBridge.send_batch], ?_⟩
  intro p hp
  by_cases h : st.current_batch = []
  · left
    rwa [PythonEventBridge.flush_batch_empty st o now h] at hp
  · rw [PythonEventBridge.flush_batch_posts st o now h] at hp
    rcases List.mem_append.1 hp with h1 | h2
    · exact Or.inl h1
    · right
      simp only [List.mem_singleton] at h2
      subst h2
      simpa using h
/-- Witness for C10: the idle sample bridge has an empty batch, and its
flush is the identity. -/
theorem C10_empty_batch_inert_witness :
    sampleIdleBridge.flush_batch SendOutcome.success 1 = sampleIdleBridge :=
  (C10_empty_batch_inert sampleIdleBridge SendOutcome.success 1).1 rfl

/-! ## C7: idempotence of start and stop -/

/-- C7: `start` twice equals `start` once and leaves the (unique) dispatcher
thread alive; a second `stop` straight after a `stop` has no further
effect. -/
theorem C7_start_stop_idempotent (st : PythonEventBridge) (o1 o2 : SendOutcome)
    (n1 n2 : ℚ) :
    st.start.start = st.start ∧
    st.start.worker_alive = true ∧
    (st.stop o1 n1).stop o2 n2 = st.stop o1 n1 := by
  refine ⟨?_, ?_, ?_⟩
  · by_cases hw : st.worker_alive <;> simp [PythonEventBridge.start, hw]
  · by_cases hw : st.worker_alive <;> simp [PythonEventBridge.start, hw]
  · by_cases hw : st.worker_alive = false <;>
      simp [PythonEventBridge.stop, hw]

/-! ## C6: connection failure accounting -/

/-- C6: a flush of a non-empty batch of size M that fails with a connection
error counts exactly M events as failed, exactly one connection error,
leaves the success counters untouched, clears the batch (no batch-level
retry), and records exactly the one attempted post. -/
theorem C6_connection_failure (st : PythonEventBridge) (now : ℚ)
    (h : st.current_batch ≠ []) :
    (st.flush_batch .connectionError now).stats.events_failed
        = st.stats.events_failed + st.current_batch.length ∧
    (st.flush_batch .connectionError now).stats.connection_errors
        = st.stats.connection_errors + 1 ∧
    (st.flush_batch .connectionError now).stats.events_sent
        = st.stats.events_sent ∧
    (st.flush_batch .connectionError now).stats.batches_sent
        = st.stats.batches_sent ∧
    (st.flush_batch .connectionError now).current_batch = [] ∧
    (st.flush_batch .connectionError now).posts.length = st.posts.length + 1 := by
  simp [PythonEventBridge.flush_batch, PythonEventBridge.send_batch, h]

/-- Witness for C6 at the concrete sample bridge. -/
theorem C6_connection_failure_witness :
    (sampleBridge.flush_batch .connectionError 1).stats.events_failed
        = sampleBridge.stats.events_failed + sampleBridge.current_batch.length ∧
    (sampleBridge.flush_batch .connectionError 1).stats.connection_errors
        = sampleBridge.stats.connection_errors + 1 ∧
    (sampleBridge.flush_batch .connectionError 1).stats.events_sent
        = sampleBridge.stats.events_sent ∧
    (sampleBridge.flush_batch .connectionError 1).stats.batches_sent
        = sampleBridge.stats.batches_sent ∧
    (sampleBridge.flush_batch .connectionError 1).current_batch = [] ∧
    (sampleBridge.flush_batch .connectionError 1).posts.length
        = sampleBridge.posts.length + 1 :=
  C6_connection_failure sampleBridge 1 (by decide)

/-! ## C8: wire format of a flushed batch -/

/-- C8: every flush of a non-empty batch records exactly one HTTP POST to
the configured endpoint, whose JSON body is `{"events": [...]}` with one
dict per batched event carrying all eight fields, and whose headers carry
the JSON content type and the static API-key header. -/
theorem C8_wire_format (st : PythonEventBridge) (o : SendOutcome) (now : ℚ)
    (h : st.current_batch ≠ []) :
    (st.flush_batch o now).posts = st.posts ++
      [{ url := st.api_url, headers := create_session st.api_key,
         payload := { events := st.current_batch.map asdict } }] ∧
    (create_session st.api_key).contentType = "application/json" ∧
    (create_session st.api_key).xApiKey = st.api_key ∧
    (∀ e : CollaborationEvent, asdict e =
      { id := e.id, type := e.type, content := e.content,
        timestamp := e.timestamp, operation_id := e.operation_id,
        session_id := e.session_id, user_id := e.user_id,
        metadata := e.metadata }) := by
  exact ⟨PythonEventBridge.flush_batch_posts st o now h, rfl, rfl, fun e => rfl⟩

/-- Witness for C8 at the concrete sample bridge. -/
theorem C8_wire_format_witness :
    (sampleBridge.flush_batch SendOutcome.success 1).posts = sampleBridge.posts ++
      [{ url := sampleBridge.api_url, headers := create_session sampleBridge.api_key,
         payload := { events := sampleBridge.current_batch.map asdict } }] ∧
    (create_session sampleBridge.api_key).contentType = "application/json" ∧
    (create_session sampleBridge.api_key).xApiKey = sampleBridge.api_key ∧
    (∀ e : CollaborationEvent, asdict e =
      { id := e.id, type := e.type, content := e.content,
        timestamp := e.timestamp, operation_id := e.operation_id,
        session_id := e.session_id, user_id := e.user_id,
        metadata := e.metadata }) :=
  C8_wire_format sampleBridge SendOutcome.success 1 (by decide)

/-! ## C2: flush triggers of the dispatcher loop

In `_worker_loop` the size/timeout check is nested under `if event:`, so an
iteration that dequeues nothing never flushes, even when the batch timeout
has long elapsed over a non-empty batch. -/

/-- C2 counterexample: it is not true that every loop iteration flushes the
batch whenever the size or timeout condition holds — an iteration that finds
the queue empty leaves a timed-out non-empty batch in place. -/
theorem C2_counterexample :
    ¬ (∀ (st : PythonEventBridge) (now : ℚ) (o : SendOutcome),
        st.stop_event = false →
        (st.batch_size ≤ st.current_batch.length ∨
         st.batch_timeout ≤ now - st.last_batch_time) →
        (st.worker_iter now o).current_batch = []) := by
  intro hclaim
  have hto : sampleBridge.batch_timeout ≤ (1 : ℚ) - sampleBridge.last_batch_time := by
    norm_num [sampleBridge]
  have := hclaim sampleBridge 1 .success rfl (Or.inr hto)
  rw [show sampleBridge.worker_iter 1 .success = sampleBridge from rfl] at this
  exact absurd this (by decide)

/-- C2 (amended): an iteration that dequeues no event leaves the bridge
unchanged (so a non-empty batch is not flushed on timeout alone); an
iteration that does dequeue an event flushes exactly when the enlarged batch
reaches the batch size or the batch timeout has elapsed since the last
flush. -/
theorem C2_flush_trigger (st : PythonEventBridge) (now : ℚ) (o : SendOutcome) :
    (st.event_queue.events = [] → st.worker_iter now o = st) ∧
    (st.event_queue.events ≠ [] →
      (st.batch_size ≤ st.current_batch.length + 1 ∨
       st.batch_timeout ≤ now - st.last_batch_time) →
      (st.worker_iter now o).current_batch = []) ∧
    (st.event_queue.events ≠ [] →
      ¬(st.batch_size ≤ st.current_batch.length + 1 ∨
        st.batch_timeout ≤ now - st.last_batch_time) →
      (st.worker_iter now o).posts = st.posts) := by
  refine ⟨?_, ?_, ?_⟩
  · intro h
    simp [PythonEventBridge.worker_iter, EventQueue.get, h]
  · intro h hcond
    rcases hq : st.event_queue.events with _ | ⟨e, rest⟩
    · exact absurd hq h
    · have hgets : st.event_queue.get =
          (some e, { st.event_queue with events := rest }) := by
        simp [EventQueue.get, hq]
      unfold PythonEventBridge.worker_iter
      rw [hgets]
      dsimp only
      rw [if_pos (by simpa using hcond)]
      exact PythonEventBridge.flush_batch_current_batch _ _ _
  · intro h hcond
    rcases hq : st.event_queue.events with _ | ⟨e, rest⟩
    · exact absurd hq h
    · have hgets : st.event_queue.get =
          (some e, { st.event_queue with events := rest }) := by
        simp [EventQueue.get, hq]
      unfold PythonEventBridge.worker_iter
      rw [hgets]
      dsimp only
      rw [if_neg (by simpa using hcond)]

/-- Witness for C2 (amended): exercised on the sample bridge with one queued
event, at a time when the timeout has elapsed, so the dequeuing iteration
flushes. -/
theorem C2_flush_trigger_witness :
    ({ sampleBridge with
        event_queue := { events := [evA], maxsize := 1000, dropped_count := 0 }
      } : PythonEventBridge).event_queue.events ≠ [] ∧
    (({ sampleBridge with
        event_queue := { events := [evA], maxsize := 1000, dropped_count := 0 }
      } : PythonEventBridge).worker_iter 1 .success).current_batch = [] := by
  refine ⟨by decide, ?_⟩
  refine (C2_flush_trigger _ 1 .success).2.1 (by decide) ?_
  right
  norm_num [sampleBridge]

/-! ## C1: stop() flushes the buffered batch -/

/-- C1: stopping a running bridge whose queue is drained and whose current
batch holds P events (0 < P < batch size) records exactly one more post —
the forced final flush — containing all P buffered events, after which the
batch is empty, the queue is still empty, and the worker is stopped. -/
theorem C1_stop_final_flush (st : PythonEventBridge) (o : SendOutcome) (now : ℚ)
    (hrun : st.worker_alive = true)
    (hq : st.event_queue.events = [])
    (hP : st.current_batch ≠ [])
    (hlt : st.current_batch.length < st.batch_size) :
    (st.stop o now).posts = st.posts ++
      [{ url := st.api_url, headers := create_session st.api_key,
         payload := { events := st.current_batch.map asdict } }] ∧
    (st.stop o now).posts.length = st.posts.length + 1 ∧
    (st.stop o now).current_batch = [] ∧
    (st.stop o now).event_queue.events = [] ∧
    (st.stop o now).worker_alive = false := by
  have hP1 : ({ st with stop_event := true } : PythonEventBridge).current_batch ≠ [] := hP
  have hsecond :
      ((({ st with stop_event := true } : PythonEventBridge).flush_batch o now).flush_batch o now)
        = ({ st with stop_event := true } : PythonEventBridge).flush_batch o now :=
    PythonEventBridge.flush_batch_empty _ o now
      (PythonEventBridge.flush_batch_current_batch _ o now)
  have hstop : st.stop o now =
      { (({ st with stop_event := true } : PythonEventBridge).flush_batch o now) with
          worker_alive := false } := by
    rw [PythonEventBridge.stop, if_neg (by simp [hrun])]
    simp only [hsecond]
  rw [hstop]
  refine ⟨?_, ?_, ?_, ?_, rfl⟩
  · exact PythonEventBridge.flush_batch_posts _ o now hP1
  · have h2 := congrArg List.length
      (PythonEventBridge.flush_batch_posts
        ({ st with stop_event := true } : PythonEventBridge) o now hP1)
    simpa using h2
  · exact PythonEventBridge.flush_batch_current_batch _ o now
  · have h3 := PythonEventBridge.flush_batch_event_queue
      ({ st with stop_event := true } : PythonEventBridge) o now
    have h4 : (({ st with stop_event := true } : PythonEventBridge).flush_batch o now).event_queue.events = [] := by
      rw [h3]; exact hq
    exact h4

/-- Witness for C1 at the concrete sample bridge (one buffered event, empty
queue, running worker). -/
theorem C1_stop_final_flush_witness :
    (sampleBridge.stop SendOutcome.success 2).posts = sampleBridge.posts ++
      [{ url := sampleBridge.api_url, headers := create_session sampleBridge.api_key,
         payload := { events := sampleBridge.current_batch.map asdict } }] ∧
    (sampleBridge.stop SendOutcome.success 2).posts.length
        = sampleBridge.posts.length + 1 ∧
    (sampleBridge.stop SendOutcome.success 2).current_batch = [] ∧
    (sampleBridge.stop SendOutcome.success 2).event_queue.events = [] ∧
    (sampleBridge.stop SendOutcome.success 2).worker_alive = false :=
  C1_stop_final_flush sampleBridge SendOutcome.success 2 (by decide) (by decide)
    (by decide) (by decide)

/-! ## Operations on a bridge, for lifetime-invariant claims -/

/-- One call made against a bridge instance during its lifetime. -/
inductive BOp where
  | emit (a : EmitArgs)
  | start
  | stop (o : SendOutcome) (now : ℚ)
  | tick (now : ℚ) (o : SendOutcome)
deriving Repr, DecidableEq

/-- Apply one call to a bridge state. -/
def applyBOp (st : PythonEventBridge) : BOp → PythonEventBridge
  | .emit a => (st.emit_event a).1
  | .start => st.start
  | .stop o now => st.stop o now
  | .tick now o => st.worker_iter now o

/-- Apply a whole call sequence. -/
def applyBOps (st : PythonEventBridge) (ops : List BOp) : PythonEventBridge :=
  ops.foldl applyBOp st

/-- The reachable states of a bridge that was constructed disabled: nothing
was ever queued, batched, posted or counted as sent. -/
def DisabledClosed (st : PythonEventBridge) : Prop :=
  st.enabled = false ∧ st.event_queue.events = [] ∧ st.current_batch = [] ∧
  st.posts = [] ∧ st.stats.events_sent = 0

lemma disabledClosed_step (st : PythonEventBridge) (op : BOp)
    (h : DisabledClosed st) : DisabledClosed (applyBOp st op) := by
  obtain ⟨hen, hq, hb, hp, hs⟩ := h
  cases op with
  | emit a =>
      simp only [applyBOp, PythonEventBridge.emit_event, hen, if_pos]
      exact ⟨hen, hq, hb, hp, hs⟩
  | start =>
      by_cases hw : st.worker_alive <;>
        simp only [applyBOp, PythonEventBridge.start, hw, if_pos, if_neg,
          Bool.false_eq_true, if_false, if_true] <;>
        exact ⟨hen, hq, hb, hp, hs⟩
  | stop o now =>
      by_cases hw : st.worker_alive = false
      · have hst : applyBOp st (.stop o now) = st := by
          simp [applyBOp, PythonEventBridge.stop, hw]
        rw [hst]
        exact ⟨hen, hq, hb, hp, hs⟩
      · have h1 : ({ st with stop_event := true } : PythonEventBridge).current_batch = [] := hb
        have h2 := PythonEventBridge.flush_batch_empty
          ({ st with stop_event := true } : PythonEventBridge) o now h1
        have hst : applyBOp st (.stop o now) =
            { ({ st with stop_event := true } : PythonEventBridge) with
                worker_alive := false } := by
          simp only [applyBOp]
          rw [PythonEventBridge.stop, if_neg hw]
          simp only [h2]
        rw [hst]
        exact ⟨hen, hq, hb, hp, hs⟩
  | tick now o =>
      simp only [applyBOp, PythonEventBridge.worker_iter, EventQueue.get, hq]
      exact ⟨hen, hq, hb, hp, hs⟩

lemma disabledClosed_run (st : PythonEventBridge) (ops : List BOp)
    (h : DisabledClosed st) : DisabledClosed (applyBOps st ops) := by
  induction ops generalizing st with
  | nil => exact h
  | cons op ops ih => exact ih (applyBOp st op) (disabledClosed_step st op h)

lemma init_no_key_disabled (url : String) (B R : Nat) (T t0 : ℚ) (en : Bool) :
    DisabledClosed (PythonEventBridge.init url "" B T R en t0) := by
  simp [PythonEventBridge.init, DisabledClosed]

/-! ## C5: a bridge without a credential is disabled and inert -/

/-- C5: constructing a bridge with no API key yields a disabled bridge; over
any sequence of calls on it, no network post is ever made, `events_sent`
stays 0, and any further `emit_event` returns `false` leaving the state
untouched. -/
theorem C5_disabled_bridge (url : String) (B R : Nat) (T t0 : ℚ) (en : Bool)
    (ops : List BOp) (a : EmitArgs) :
    (PythonEventBridge.init url "" B T R en t0).enabled = false ∧
    (applyBOps (PythonEventBridge.init url "" B T R en t0) ops).posts = [] ∧
    (PythonEventBridge.get_stats
      (applyBOps (PythonEventBridge.init url "" B T R en t0) ops)).events_sent = 0 ∧
    (applyBOps (PythonEventBridge.init url "" B T R en t0) ops).emit_event a =
      ((applyBOps (PythonEventBridge.init url "" B T R en t0) ops), false) := by
  have h := disabledClosed_run _ ops (init_no_key_disabled url B R T t0 en)
  refine ⟨(init_no_key_disabled url B R T t0 en).1, h.2.2.2.1, h.2.2.2.2, ?_⟩
  simp [PythonEventBridge.emit_event, h.1]

/-! ## C9: bounded-queue invariants -/

/-- One call made against the queue. -/
inductive QOp where
  | put (e : CollaborationEvent)
  | get
deriving Repr, DecidableEq

/-- Apply one call to a queue state. -/
def applyQOp (q : EventQueue) : QOp → EventQueue
  | .put e => (q.put e).1
  | .get => q.get.2

/-- Apply a whole call sequence to a queue. -/
def runQOps (q : EventQueue) (ops : List QOp) : EventQueue :=
  ops.foldl applyQOp q

/-- Insert a list of events one by one. -/
def putAll (q : EventQueue) (es : List CollaborationEvent) : EventQueue :=
  es.foldl (fun acc e => (acc.put e).1) q

lemma applyQOp_maxsize (q : EventQueue) (op : QOp) :
    (applyQOp q op).maxsize = q.maxsize := by
  cases op with
  | put e =>
      by_cases h : q.maxsize = 0 ∨ q.events.length < q.maxsize <;>
        simp [applyQOp, EventQueue.put, h]
  | get =>
      cases hq : q.events <;> simp [applyQOp, EventQueue.get, hq]

lemma applyQOp_length_le (q : EventQueue) (op : QOp) (hcap : 0 < q.maxsize)
    (h : q.events.length ≤ q.maxsize) :
    (applyQOp q op).events.length ≤ q.maxsize := by
  cases op with
  | put e =>
      by_cases h1 : q.maxsize = 0 ∨ q.events.length < q.maxsize
      · rcases h1 with h1 | h1
        · exact absurd h1 (by omega)
        · simp only [applyQOp, EventQueue.put, if_pos (Or.inr h1),
            List.length_append, List.length_singleton]
          omega
      · simp only [applyQOp, EventQueue.put, if_neg h1]
        exact h
  | get =>
      cases hq : q.events with
      | nil =>
          simp only [applyQOp, EventQueue.get, hq, List.length_nil]
          omega
      | cons e rest =>
          simp only [applyQOp, EventQueue.get, hq, List.length_cons] at h ⊢
          omega

lemma applyQOp_dropped_mono (q : EventQueue) (op : QOp) :
    q.dropped_count ≤ (applyQOp q op).dropped_count := by
  cases op with
  | put e =>
      by_cases h : q.maxsize = 0 ∨ q.events.length < q.maxsize <;>
        simp [applyQOp, EventQueue.put, h]
  | get =>
      cases hq : q.events <;> simp [applyQOp, EventQueue.get, hq]

lemma runQOps_length_le (q : EventQueue) (ops : List QOp) (hcap : 0 < q.maxsize)
    (h : q.events.length ≤ q.maxsize) :
    (runQOps q ops).events.length ≤ q.maxsize := by
  induction ops generalizing q with
  | nil => exact h
  | cons op ops ih =>
      have h1 := applyQOp_length_le q op hcap h
      have h2 := applyQOp_maxsize q op
      have := ih (applyQOp q op) (by rw [h2]; exact hcap) (by rw [h2]; exact h1)
      rwa [h2] at this

lemma runQOps_dropped_mono (q : EventQueue) (ops : List QOp) :
    q.dropped_count ≤ (runQOps q ops).dropped_count := by
  induction ops generalizing q with
  | nil => exact Nat.le_refl _
  | cons op ops ih =>
      exact Nat.le_trans (applyQOp_dropped_mono q op) (ih (applyQOp q op))

lemma putAll_no_overflow (es : List CollaborationEvent) (q : EventQueue)
    (h : q.events.length + es.length ≤ q.maxsize) :
    (putAll q es).events = q.events ++ es ∧
    (putAll q es).dropped_count = q.dropped_count ∧
    (putAll q es).maxsize = q.maxsize := by
  induction es generalizing q with
  | nil => simp [putAll]
  | cons e rest ih =>
      simp only [List.length_cons] at h
      have hlt : q.events.length < q.maxsize := by omega
      have hput : (q.put e).1 =
          { q with events := q.events ++ [e] } := by
        simp [EventQueue.put, Or.inr hlt]
      have hrec := ih ({ q with events := q.events ++ [e] })
        (by simp only [List.length_append, List.length_singleton]; omega)
      refine ⟨?_, ?_, ?_⟩
      · show (putAll ((q.put e).1) rest).events = q.events ++ e :: rest
        rw [hput, hrec.1]
        simp
      · show (putAll ((q.put e).1) rest).dropped_count = q.dropped_count
        rw [hput, hrec.2.1]
      · show (putAll ((q.put e).1) rest).maxsize = q.maxsize
        rw [hput, hrec.2.2]

lemma putAll_overflow (es : List CollaborationEvent) (q : EventQueue)
    (hcap : 0 < q.maxsize) (hfull : q.events.length = q.maxsize) :
    (putAll q es).events = q.events ∧
    (putAll q es).dropped_count = q.dropped_count + es.length := by
  induction es generalizing q with
  | nil => simp [putAll]
  | cons e rest ih =>
      have h1 : ¬(q.maxsize = 0 ∨ q.events.length < q.maxsize) := by omega
      have hput : (q.put e).1 =
          { q with dropped_count := q.dropped_count + 1 } := by
        simp [EventQueue.put, h1]
      have hrec := ih ({ q with dropped_count := q.dropped_count + 1 })
        hcap hfull
      constructor
      · show (putAll ((q.put e).1) rest).events = q.events
        rw [hput, hrec.1]
      · show (putAll ((q.put e).1) rest).dropped_count
            = q.dropped_count + (e :: rest).length
        rw [hput, hrec.2]
        simp only [List.length_cons]
        omega

lemma putAll_append (q : EventQueue) (l1 l2 : List CollaborationEvent) :
    putAll q (l1 ++ l2) = putAll (putAll q l1) l2 :=
  List.foldl_append _ _ l1 l2

/-- C9: starting from an in-bounds queue, `size() ≤ capacity` holds after
any sequence of puts and gets and the drop counter never decreases; from an
empty queue of positive capacity, putting N ≤ capacity events yields size N
and no drops, while putting capacity + K events (K > 0) yields exactly K
drops with the queue left at capacity. -/
theorem C9_queue_invariants (cap K : Nat) (es : List CollaborationEvent)
    (ops : List QOp) (q : EventQueue) (hcap : 0 < cap) :
    ((q.maxsize = cap → q.events.length ≤ cap → (runQOps q ops).size ≤ cap) ∧
     q.get_dropped_count ≤ (runQOps q ops).get_dropped_count) ∧
    (es.length ≤ cap →
      (putAll { events := [], maxsize := cap, dropped_count := 0 } es).size = es.length ∧
      (putAll { events := [], maxsize := cap, dropped_count := 0 } es).get_dropped_count = 0) ∧
    (0 < K → es.length = cap + K →
      (putAll { events := [], maxsize := cap, dropped_count := 0 } es).get_dropped_count = K ∧
      (putAll { events := [], maxsize := cap, dropped_count := 0 } es).size = cap) := by
  refine ⟨⟨?_, runQOps_dropped_mono q ops⟩, ?_, ?_⟩
  · intro hm hlen
    have := runQOps_length_le q ops (by rw [hm]; exact hcap) (by rw [hm]; exact hlen)
    rw [hm] at this
    exact this
  · intro hlen
    have h := putAll_no_overflow es { events := [], maxsize := cap, dropped_count := 0 }
      (by simpa using hlen)
    unfold EventQueue.size EventQueue.get_dropped_count
    rw [h.1, h.2.1]
    simp
  · intro hK hlen
    have htake : (es.take cap).length = cap := by
      rw [List.length_take]
      omega
    have hdrop : (es.drop cap).length = K := by
      rw [List.length_drop]
      omega
    have h1 := putAll_no_overflow (es.take cap)
      { events := [], maxsize := cap, dropped_count := 0 }
      (by simp [htake])
    have hq1 : (putAll { events := [], maxsize := cap, dropped_count := 0 }
        (es.take cap)).events.length = cap := by
      rw [h1.1]
      simpa using htake
    have h2 := putAll_overflow (es.drop cap)
      (putAll { events := [], maxsize := cap, dropped_count := 0 } (es.take cap))
      (by rw [h1.2.2]; exact hcap)
      (by rw [h1.2.2]; exact hq1)
    have hsplit2 :
        putAll { events := [], maxsize := cap, dropped_count := 0 } es
          = putAll (putAll { events := [], maxsize := cap, dropped_count := 0 }
              (es.take cap)) (es.drop cap) := by
      conv_lhs => rw [← List.take_append_drop cap es]
      exact putAll_append _ _ _
    constructor
    · unfold EventQueue.get_dropped_count
      rw [hsplit2, h2.2, h1.2.1, hdrop]
      simp
    · unfold EventQueue.size
      rw [hsplit2, h2.1, hq1]

/-- Witness for C9 at capacity 2 with three inserted events. -/
theorem C9_queue_invariants_witness :
    ((3 : Nat) ≤ 2 →
      (putAll { events := [], maxsize := 2, dropped_count := 0 } [evA, evA, evA]).size = 3 ∧
      (putAll { events := [], maxsize := 2, dropped_count := 0 } [evA, evA, evA]).get_dropped_count = 0) ∧
    ((putAll { events := [], maxsize := 2, dropped_count := 0 } [evA, evA, evA]).get_dropped_count = 1 ∧
     (putAll { events := [], maxsize := 2, dropped_count := 0 } [evA, evA, evA]).size = 2) :=
  ⟨(C9_queue_invariants 2 1 [evA, evA, evA] [QOp.put evA, QOp.get]
      { events := [], maxsize := 2, dropped_count := 0 } (by decide)).2.1,
   (C9_queue_invariants 2 1 [evA, evA, evA] [QOp.put evA, QOp.get]
      { events := [], maxsize := 2, dropped_count := 0 } (by decide)).2.2
      (by decide) (by decide)⟩

/-! ## C4: batch partitioning of a drained queue

`drainLoop B batch q` is the accumulate/flush skeleton of the dispatcher
loop when the timeout trigger never fires and every send succeeds: it
returns the list of flushed batches and the final (unflushed) batch. -/

def drainLoop (B : Nat) :
    List CollaborationEvent → List CollaborationEvent →
    List (List CollaborationEvent) × List CollaborationEvent
  | batch, [] => ([], batch)
  | batch, e :: rest =>
    if B ≤ (batch ++ [e]).length then
      ((batch ++ [e]) :: (drainLoop B [] rest).1, (drainLoop B [] rest).2)
    else
      drainLoop B (batch ++ [e]) rest

lemma drainLoop_sizes (B : Nat) (q : List CollaborationEvent) :
    ∀ batch : List CollaborationEvent, 0 < B → batch.length < B →
    (drainLoop B batch q).1.map List.length
        = List.replicate ((batch.length + q.length) / B) B ∧
    (drainLoop B batch q).2.length = (batch.length + q.length) % B := by
  induction q with
  | nil =>
      intro batch hB hbatch
      constructor
      · simp [drainLoop, Nat.div_eq_of_lt hbatch]
      · simp [drainLoop, Nat.mod_eq_of_lt hbatch]
  | cons e rest ih =>
      intro batch hB hbatch
      by_cases hf : B ≤ (batch ++ [e]).length
      · have hlen : batch.length + 1 = B := by
          simp only [List.length_append, List.length_singleton] at hf
          omega
        have ih0 := ih [] hB (by simpa using hB)
        have htot : batch.length + (e :: rest).length = rest.length + B := by
          simp only [List.length_cons]
          omega
        constructor
        · simp only [drainLoop, if_pos hf, List.map_cons, ih0.1]
          rw [htot, Nat.add_div_right _ hB]
          have hBlen : (batch ++ [e]).length = B := by
            simp only [List.length_append, List.length_singleton]
            omega
          rw [hBlen, List.replicate_succ]
          simp
        · simp only [drainLoop, if_pos hf, ih0.2]
          rw [htot, Nat.add_mod_right]
          simp
      · have hlt : (batch ++ [e]).length < B := by
          simp only [List.length_append, List.length_singleton] at hf ⊢
          omega
        have ih1 := ih (batch ++ [e]) hB hlt
        have htot : (batch ++ [e]).length + rest.length
            = batch.length + (e :: rest).length := by
          simp only [List.length_append, List.length_singleton, List.length_cons,
            List.length_nil]
          omega
        constructor
        · simp only [drainLoop, if_neg hf, ih1.1, htot]
        · simp only [drainLoop, if_neg hf, ih1.2, htot]

/-- The schedule never lets the batch timeout elapse: every iteration runs
within the timeout of the initial last-flush time and of every possible
in-run flush time. -/
def timeoutNeverFires (st : PythonEventBridge) (ticks : List Tick) : Prop :=
  ∀ t ∈ ticks, t.now - st.last_batch_time < st.batch_timeout ∧
    ∀ t' ∈ ticks, t.now - t'.now < st.batch_timeout

lemma PythonEventBridge.flush_batch_last_batch_time (st : PythonEventBridge)
    (o : SendOutcome) (now : ℚ) (h : st.current_batch ≠ []) :
    (st.flush_batch o now).last_batch_time = now := by
  cases o <;>
    simp [PythonEventBridge.flush_batch, PythonEventBridge.send_batch, h]

lemma PythonEventBridge.worker_iter_eq_cons (st : PythonEventBridge) (now : ℚ)
    (o : SendOutcome) (e : CollaborationEvent) (rest : List CollaborationEvent)
    (hev : st.event_queue.events = e :: rest) :
    st.worker_iter now o =
      if st.batch_size ≤ (st.current_batch ++ [e]).length ∨
          st.batch_timeout ≤ now - st.last_batch_time then
        ({ st with event_queue := { st.event_queue with events := rest },
                   current_batch := st.current_batch ++ [e] } :
            PythonEventBridge).flush_batch o now
      else
        { st with event_queue := { st.event_queue with events := rest },
                  current_batch := st.current_batch ++ [e] } := by
  have hget : st.event_queue.get =
      (some e, { st.event_queue with events := rest }) := by
    simp [EventQueue.get, hev]
  unfold PythonEventBridge.worker_iter
  rw [hget]

lemma PythonEventBridge.worker_iter_flush_case (st : PythonEventBridge)
    (now : ℚ) (o : SendOutcome) (e : CollaborationEvent)
    (rest : List CollaborationEvent)
    (hev : st.event_queue.events = e :: rest)
    (hcond : st.batch_size ≤ (st.current_batch ++ [e]).length) :
    (st.worker_iter now o).event_queue.events = rest ∧
    (st.worker_iter now o).current_batch = [] ∧
    (st.worker_iter now o).posts = st.posts ++
      [{ url := st.api_url, headers := create_session st.api_key,
         payload := { events := (st.current_batch ++ [e]).map asdict } }] ∧
    (st.worker_iter now o).stop_event = st.stop_event ∧
    (st.worker_iter now o).batch_size = st.batch_size ∧
    (st.worker_iter now o).batch_timeout = st.batch_timeout ∧
    (st.worker_iter now o).api_url = st.api_url ∧
    (st.worker_iter now o).api_key = st.api_key ∧
    (st.worker_iter now o).last_batch_time = now := by
  rw [PythonEventBridge.worker_iter_eq_cons st now o e rest hev,
    if_pos (Or.inl hcond)]
  refine ⟨?_, ?_, ?_, ?_, ?_, ?_, ?_, ?_, ?_⟩
  · rw [PythonEventBridge.flush_batch_event_queue]
  · exact PythonEventBridge.flush_batch_current_batch _ _ _
  · rw [PythonEventBridge.flush_batch_posts _ _ _ (by simp)]
  · rw [PythonEventBridge.flush_batch_stop_event]
  · rw [PythonEventBridge.flush_batch_batch_size]
  · rw [PythonEventBridge.flush_batch_batch_timeout]
  · rw [PythonEventBridge.flush_batch_api_url]
  · rw [PythonEventBridge.flush_batch_api_key]
  · rw [PythonEventBridge.flush_batch_last_batch_time _ _ _ (by simp)]

lemma PythonEventBridge.worker_iter_no_flush (st : PythonEventBridge)
    (now : ℚ) (o : SendOutcome) (e : CollaborationEvent)
    (rest : List CollaborationEvent)
    (hev : st.event_queue.events = e :: rest)
    (hcond : ¬ st.batch_size ≤ (st.current_batch ++ [e]).length)
    (htime : ¬ st.batch_timeout ≤ now - st.last_batch_time) :
    st.worker_iter now o =
      { st with event_queue := { st.event_queue with events := rest },
                current_batch := st.current_batch ++ [e] } := by
  rw [PythonEventBridge.worker_iter_eq_cons st now o e rest hev,
    if_neg (not_or.mpr ⟨hcond, htime⟩)]

lemma worker_loop_go_drain (ticks : List Tick) :
    ∀ st : PythonEventBridge,
    st.stop_event = false →
    ticks.length = st.event_queue.events.length →
    (∀ t ∈ ticks, t.outcome = SendOutcome.success) →
    0 < st.batch_size →
    st.current_batch.length < st.batch_size →
    timeoutNeverFires st ticks →
    (st.worker_loop_go ticks).event_queue.events = [] ∧
    (st.worker_loop_go ticks).current_batch
        = (drainLoop st.batch_size st.current_batch st.event_queue.events).2 ∧
    (st.worker_loop_go ticks).posts = st.posts ++
      (drainLoop st.batch_size st.current_batch st.event_queue.events).1.map
        (fun b => { url := st.api_url, headers := create_session st.api_key,
                    payload := { events := b.map asdict } }) := by
  induction ticks with
  | nil =>
      intro st hstop hlen hsucc hB hbatch htime
      have hq : st.event_queue.events = [] := by
        rcases hev : st.event_queue.events with _ | ⟨e, r⟩
        · rfl
        · rw [hev] at hlen
          simp at hlen
      rw [hq]
      simp [PythonEventBridge.worker_loop_go, drainLoop]
      exact hq
  | cons t ts ih =>
      intro st hstop hlen hsucc hB hbatch htime
      obtain ⟨e, rest, hev⟩ : ∃ e rest, st.event_queue.events = e :: rest := by
        rcases hev : st.event_queue.events with _ | ⟨e, r⟩
        · rw [hev] at hlen
          simp at hlen
        · exact ⟨e, r, rfl⟩
      have hlen' : ts.length = rest.length := by
        rw [hev] at hlen
        simpa using hlen
      have hosucc : t.outcome = SendOutcome.success :=
        hsucc t (List.mem_cons_self t ts)
      have hsucc' : ∀ t' ∈ ts, t'.outcome = SendOutcome.success :=
        fun t' ht' => hsucc t' (List.mem_cons_of_mem t ht')
      have htime_t := htime t (List.mem_cons_self t ts)
      have hnotime : ¬ st.batch_timeout ≤ t.now - st.last_batch_time :=
        not_le.mpr htime_t.1
      have hgo : st.worker_loop_go (t :: ts)
          = (st.worker_iter t.now t.outcome).worker_loop_go ts := by
        simp [PythonEventBridge.worker_loop_go, hstop]
      by_cases hcond : st.batch_size ≤ (st.current_batch ++ [e]).length
      · -- the appended event fills the batch: this iteration flushes
        obtain ⟨hFq, hFb, hFp, hFstop, hFB, hFto, hFurl, hFkey, hFlast⟩ :=
          PythonEventBridge.worker_iter_flush_case st t.now t.outcome e rest hev hcond
        have hFtime : timeoutNeverFires (st.worker_iter t.now t.outcome) ts := by
          intro t' ht'
          rw [hFlast, hFto]
          constructor
          · exact (htime t' (List.mem_cons_of_mem t ht')).2 t (List.mem_cons_self t ts)
          · intro t'' ht''
            exact (htime t' (List.mem_cons_of_mem t ht')).2 t'' (List.mem_cons_of_mem t ht'')
        have hrec := ih (st.worker_iter t.now t.outcome)
          (by rw [hFstop]; exact hstop)
          (by rw [hFq]; exact hlen')
          hsucc'
          (by rw [hFB]; exact hB)
          (by rw [hFb, hFB]; simpa using hB)
          hFtime
        rw [hgo]
        have hdrain : drainLoop st.batch_size st.current_batch (e :: rest)
            = ((st.current_batch ++ [e]) :: (drainLoop st.batch_size [] rest).1,
               (drainLoop st.batch_size [] rest).2) := by
          simp only [drainLoop, if_pos hcond]
        refine ⟨hrec.1, ?_, ?_⟩
        · rw [hrec.2.1, hFq, hFb, hFB, hev, hdrain]
        · rw [hrec.2.2, hFq, hFb, hFB, hFurl, hFkey, hFp, hev, hdrain]
          simp
      · -- batch not yet full and timeout not elapsed: accumulate only
        have hiter := PythonEventBridge.worker_iter_no_flush st t.now t.outcome
          e rest hev hcond hnotime
        have hlt : (st.current_batch ++ [e]).length < st.batch_size := by
          omega
        have hStime : timeoutNeverFires (st.worker_iter t.now t.outcome) ts := by
          rw [hiter]
          intro t' ht'
          constructor
          · exact (htime t' (List.mem_cons_of_mem t ht')).1
          · intro t'' ht''
            exact (htime t' (List.mem_cons_of_mem t ht')).2 t'' (List.mem_cons_of_mem t ht'')
        have hrec := ih (st.worker_iter t.now t.outcome)
          (by rw [hiter]; exact hstop)
          (by rw [hiter]; exact hlen')
          hsucc'
          (by rw [hiter]; exact hB)
          (by rw [hiter]; exact hlt)
          hStime
        rw [hgo]
        have hdrain : drainLoop st.batch_size st.current_batch (e :: rest)
            = drainLoop st.batch_size (st.current_batch ++ [e]) rest := by
          simp only [drainLoop, if_neg hcond]
        refine ⟨hrec.1, ?_, ?_⟩
        · rw [hrec.2.1, hiter, hev, hdrain]
        · rw [hrec.2.2, hiter, hev, hdrain]

/-- C4: with batch size B, an empty starting batch, the batch timeout never
elapsing and every send succeeding, running the dispatcher loop over exactly
the queued events followed by the final forced flush partitions the events
into batches: exactly B queued events yield exactly one posted batch of size
B; `k·B + r` queued events (0 < r < B) yield k full batches of size B
followed by one partial batch of size r. -/
theorem C4_batch_partition (st : PythonEventBridge) (ticks : List Tick)
    (k r : Nat) (fo : SendOutcome) (fnow : ℚ)
    (hstop : st.stop_event = false)
    (hb : st.current_batch = [])
    (hB : 0 < st.batch_size)
    (hlen : ticks.length = st.event_queue.events.length)
    (hsucc : ∀ t ∈ ticks, t.outcome = SendOutcome.success)
    (htime : timeoutNeverFires st ticks) :
    (st.event_queue.events.length = st.batch_size →
      ((st.worker_loop ticks fo fnow).posts.drop st.posts.length).map
          (fun p => p.payload.events.length) = [st.batch_size]) ∧
    (0 < r → r < st.batch_size →
      st.event_queue.events.length = k * st.batch_size + r →
      ((st.worker_loop ticks fo fnow).posts.drop st.posts.length).map
          (fun p => p.payload.events.length)
        = List.replicate k st.batch_size ++ [r]) := by
  obtain ⟨hGq, hGb, hGp⟩ := worker_loop_go_drain ticks st hstop hlen hsucc hB
    (by rw [hb]; simpa using hB) htime
  rw [hb] at hGb hGp
  have hsizes := drainLoop_sizes st.batch_size st.event_queue.events [] hB
    (by simpa using hB)
  simp only [List.length_nil, Nat.zero_add] at hsizes
  have hcomp : ((fun p : HttpPost => p.payload.events.length) ∘
      (fun b : List CollaborationEvent =>
        ({ url := st.api_url, headers := create_session st.api_key,
           payload := { events := b.map asdict } } : HttpPost))) = List.length := by
    funext b
    simp [List.length_map]
  constructor
  · intro hq
    have hmod : st.event_queue.events.length % st.batch_size = 0 := by
      rw [hq]
      exact Nat.mod_self _
    have hnil : (drainLoop st.batch_size [] st.event_queue.events).2 = [] := by
      have h2 := hsizes.2
      rw [hmod] at h2
      exact List.length_eq_zero.mp h2
    have hGbnil : (st.worker_loop_go ticks).current_batch = [] := by
      rw [hGb, hnil]
    have hloop : st.worker_loop ticks fo fnow = st.worker_loop_go ticks :=
      PythonEventBridge.flush_batch_empty _ fo fnow hGbnil
    rw [hloop, hGp, List.drop_left, List.map_map, hcomp, hsizes.1, hq,
      Nat.div_self hB]
    simp
  · intro hr hrB hqlen
    have hdiv : st.event_queue.events.length / st.batch_size = k := by
      rw [hqlen, Nat.add_comm (k * st.batch_size) r,
        Nat.add_mul_div_right r k hB, Nat.div_eq_of_lt hrB]
      omega
    have hmod : st.event_queue.events.length % st.batch_size = r := by
      rw [hqlen, Nat.add_comm (k * st.batch_size) r,
        Nat.add_mul_mod_self_right, Nat.mod_eq_of_lt hrB]
    have hlen2 : (drainLoop st.batch_size [] st.event_queue.events).2.length = r := by
      rw [hsizes.2, hmod]
    have hne : (drainLoop st.batch_size [] st.event_queue.events).2 ≠ [] := by
      intro hnil
      rw [hnil] at hlen2
      simp at hlen2
      omega
    have hGbne : (st.worker_loop_go ticks).current_batch ≠ [] := by
      rw [hGb]
      exact hne
    have hfl : (st.worker_loop ticks fo fnow).posts
        = (st.worker_loop_go ticks).posts ++
          [{ url := (st.worker_loop_go ticks).api_url,
             headers := create_session (st.worker_loop_go ticks).api_key,
             payload := { events := (st.worker_loop_go ticks).current_batch.map asdict } }] :=
      PythonEventBridge.flush_batch_posts (st.worker_loop_go ticks) fo fnow hGbne
    rw [hfl, hGp, hGb, List.append_assoc, List.drop_left, List.map_append,
      List.map_map, hcomp, hsizes.1, hdiv]
    simp [List.length_map, hlen2]

/-- Concrete bridge for exercising C4: batch size 2, five queued events. -/
def stC4 : PythonEventBridge :=
  { sampleIdleBridge with
      batch_size := 2
      event_queue := { events := [evA, evA, evA, evA, evA], maxsize := 1000,
                       dropped_count := 0 } }

/-- Schedule for C4: five loop iterations, all at time 0, all sends
succeeding. -/
def ticksC4 : List Tick :=
  List.replicate 5 { now := 0, outcome := SendOutcome.success }

/-- Witness for C4: five events with batch size 2 partition into two full
batches and one partial batch of size 1. -/
theorem C4_batch_partition_witness :
    timeoutNeverFires stC4 ticksC4 ∧
    stC4.event_queue.events.length = 2 * stC4.batch_size + 1 ∧
    ((stC4.worker_loop ticksC4 SendOutcome.success 0).posts.drop
        stC4.posts.length).map (fun p => p.payload.events.length)
      = List.replicate 2 stC4.batch_size ++ [1] := by
  have htimeC4 : timeoutNeverFires stC4 ticksC4 := by
    intro t ht
    have hnow : t.now = 0 := by
      rw [List.eq_of_mem_replicate ht]
    constructor
    · rw [hnow]
      norm_num [stC4, sampleIdleBridge, sampleBridge]
    · intro t' ht'
      rw [hnow, List.eq_of_mem_replicate ht']
      norm_num [stC4, sampleIdleBridge, sampleBridge]
  refine ⟨htimeC4, by decide, ?_⟩
  exact (C4_batch_partition stC4 ticksC4 2 1 SendOutcome.success 0 rfl rfl
    (by decide) (by decide) (by decide) htimeC4).2
    (by decide) (by decide) (by decide)
